import Mathlib

/-!
Shallow embedding of the status/workflow core of the contraly repository
(apps/contracts, apps/invoices, apps/payments), together with proofs about
the lifecycle state machine, the line-item aggregator, the payment
application engine and the approval workflow.

Conventions of the embedding:
* Django model rows become Lean structures; querysets become lists.
* A status history is a `List (StatusRec σ)` ordered most-recent-first
  (Django's `ordering = ["-start_date"]` / `order_by("-created_at")`).
* Monetary `Decimal` values become `ℚ` (all arithmetic in the source is
  exact decimal arithmetic: products and divisions by 100).
* Timestamps become `Nat`; `end_date = NULL` becomes `none`.
* Each endpoint/model method is translated to a pure function; an early
  `Response(..., 4xx)` return becomes an `Except` error result, in which
  case no state is produced (mirroring that the source returns before any
  write).
-/

namespace Contraly

/-- Invoice lifecycle states, from `InvoiceStatus.STATUS_CHOICES`
(apps/invoices/models/status.py). -/
inductive IStatus where
  | DRAFT
  | SUBMITTED
  | REVIEW
  | PENDING_APPROVAL
  | APPROVED
  | REJECTED
  | PAID
  | CANCELLED
  | ARCHIVED
deriving DecidableEq, Repr

/-- Contract lifecycle states, from `ContractStatus.STATUS_CHOICES`
(apps/contracts/models/status.py). -/
inductive CStatus where
  | DRAFT
  | REVIEW
  | PENDING_APPROVAL
  | APPROVED
  | SIGNED
  | ACTIVE
  | ON_HOLD
  | COMPLETED
  | TERMINATED
  | CANCELLED
  | EXPIRED
  | ARCHIVED
deriving DecidableEq, Repr

/-- One status-history row (shared shape of `InvoiceStatus` and
`ContractStatus`): status code, creation time, `end_date` (`none` while the
record is the open/current one) and the `BaseModel` soft-delete flags. -/
structure StatusRec (σ : Type) where
  status : σ
  start_date : Nat
  end_date : Option Nat
  is_active : Bool
  is_deleted : Bool
deriving DecidableEq, Repr

/-- A status history, most recently created record first. -/
abbrev Hist (σ : Type) := List (StatusRec σ)

/-- The filter used by `InvoiceStatus.save` / `ContractStatus.save` to find
the record to close: `end_date__isnull=True, is_active=True,
is_deleted=False`. -/
def closable {σ : Type} (r : StatusRec σ) : Bool :=
  r.end_date.isNone && r.is_active && !r.is_deleted

/-- Close the first open active non-deleted record (`.first()` on the
filtered queryset, which is ordered most-recent-first), setting its
`end_date` to `now`; all other records are untouched. -/
def closeFirstOpen {σ : Type} (now : Nat) : Hist σ → Hist σ
  | [] => []
  | r :: rs =>
      if closable r then { r with end_date := some now } :: rs
      else r :: closeFirstOpen now rs

/-- A freshly inserted status record: open (`end_date = none`), active,
not deleted. -/
def newStatusRec {σ : Type} (now : Nat) (s : σ) : StatusRec σ :=
  ⟨s, now, none, true, false⟩

/-- `InvoiceStatus.save` / `ContractStatus.save` for a new record
(models/status.py): close the previously open record of the same
aggregate, if any, then insert the new record with `end_date = null`. -/
def createStatus {σ : Type} (now : Nat) (s : σ) (h : Hist σ) : Hist σ :=
  newStatusRec now s :: closeFirstOpen now h

/-- Number of records of the history whose `end_date` is null. -/
def openCount {σ : Type} (h : Hist σ) : Nat :=
  (h.filter (fun r => r.end_date.isNone)).length

/-- The history obtained by sequentially executing a list of status-record
creations (each given as creation time and status code), starting from an
aggregate with no status records. -/
def mkHistory {σ : Type} (creations : List (Nat × σ)) : Hist σ :=
  creations.foldl (fun h p => createStatus p.1 p.2 h) []

/-- `Invoice.current_status` / `Contract.current_status`: the most recently
created active non-deleted status record (the histories are kept
most-recent-first). -/
def currentStatusRec {σ : Type} (h : Hist σ) : Option (StatusRec σ) :=
  h.find? (fun r => r.is_active && !r.is_deleted)

/-- The status code of the current status record, if any. -/
def currentStatusCode {σ : Type} (h : Hist σ) : Option σ :=
  (currentStatusRec h).map (·.status)

/-! Helper lemmas about histories. -/

theorem openCount_nil {σ : Type} : openCount ([] : Hist σ) = 0 := rfl

theorem openCount_cons {σ : Type} (r : StatusRec σ) (t : Hist σ) :
    openCount (r :: t) = (if r.end_date.isNone then 1 else 0) + openCount t := by
  simp only [openCount, List.filter_cons]
  split <;> simp [Nat.add_comm]

/-- Every open record of the history is active and not deleted (so the
closing filter in `save` can see it). -/
def GoodOpen {σ : Type} (h : Hist σ) : Prop :=
  ∀ r ∈ h, r.end_date.isNone = true → (r.is_active = true ∧ r.is_deleted = false)

theorem openCount_zero_no_open {σ : Type} {h : Hist σ} (hz : openCount h = 0) :
    ∀ r ∈ h, ¬ r.end_date.isNone = true := by
  intro r hr
  have hnil : h.filter (fun r => r.end_date.isNone) = [] :=
    List.length_eq_zero.mp hz
  exact List.filter_eq_nil_iff.mp hnil r hr

theorem closeFirstOpen_openCount {σ : Type} (now : Nat) :
    ∀ (h : Hist σ), GoodOpen h → openCount h ≤ 1 →
      openCount (closeFirstOpen now h) = 0 := by
  intro h
  induction h with
  | nil => intro _ _; rfl
  | cons r t ih =>
      intro hg hc
      by_cases hcl : closable r = true
      · have hopen : r.end_date.isNone = true := by
          simp only [closable, Bool.and_eq_true] at hcl
          exact hcl.1.1
        have hcount : openCount t = 0 := by
          have := openCount_cons r t
          rw [hopen] at this
          simp at this
          omega
        simp only [closeFirstOpen, hcl, if_true]
        have := openCount_cons ({ r with end_date := some now }) t
        simp only [this]
        simp [hcount]
      · have hclosed : r.end_date.isNone = false := by
          by_contra hcon
          have hopen : r.end_date.isNone = true := by
            cases hval : r.end_date.isNone
            · exact absurd hval hcon
            · rfl
          have hflags := hg r (List.mem_cons_self r t) hopen
          have : closable r = true := by
            simp [closable, hopen, hflags.1, hflags.2]
          exact hcl this
        have hgt : GoodOpen t := fun x hx => hg x (List.mem_cons_of_mem r hx)
        have hct : openCount t ≤ 1 := by
          have := openCount_cons r t
          rw [hclosed] at this
          simp at this
          omega
        have hcl' : closable r = false := by
          cases hval : closable r
          · rfl
          · exact absurd hval hcl
        simp only [closeFirstOpen, hcl', Bool.false_eq_true, if_false]
        rw [openCount_cons, hclosed]
        simpa using ih hgt hct

theorem createStatus_openCount {σ : Type} (now : Nat) (s : σ) (h : Hist σ)
    (hg : GoodOpen h) (hc : openCount h ≤ 1) :
    openCount (createStatus now s h) = 1 := by
  simp only [createStatus]
  rw [openCount_cons]
  simp [newStatusRec, closeFirstOpen_openCount now h hg hc]

theorem createStatus_goodOpen {σ : Type} (now : Nat) (s : σ) (h : Hist σ)
    (hg : GoodOpen h) (hc : openCount h ≤ 1) :
    GoodOpen (createStatus now s h) := by
  intro r hr hopen
  simp only [createStatus, List.mem_cons] at hr
  cases hr with
  | inl heq => subst heq; exact ⟨rfl, rfl⟩
  | inr hmem =>
      have hz := closeFirstOpen_openCount now h hg hc
      exact absurd hopen (openCount_zero_no_open hz r hmem)

theorem mkHistory_invariant {σ : Type} (creations : List (Nat × σ)) :
    GoodOpen (mkHistory creations) ∧ openCount (mkHistory creations) ≤ 1 := by
  suffices hgen : ∀ (cs : List (Nat × σ)) (h : Hist σ), GoodOpen h → openCount h ≤ 1 →
      GoodOpen (cs.foldl (fun h p => createStatus p.1 p.2 h) h) ∧
      openCount (cs.foldl (fun h p => createStatus p.1 p.2 h) h) ≤ 1 by
    exact hgen creations [] (fun r hr => absurd hr (List.not_mem_nil r)) (by simp [openCount])
  intro cs
  induction cs with
  | nil => intro h hg hc; exact ⟨hg, hc⟩
  | cons p rest ih =>
      intro h hg hc
      exact ih (createStatus p.1 p.2 h)
        (createStatus_goodOpen p.1 p.2 h hg hc)
        (le_of_eq (createStatus_openCount p.1 p.2 h hg hc))

/-- C1: for every aggregate (Contract or Invoice, so for an arbitrary
status-code type) and every sequence of sequentially executed
status-record creations starting from an aggregate with no status
records, at most one status record is open (`end_date = null`) at any
point; moreover each further creation closes the previously open record
(if any) and leaves exactly one open record, namely the new one. -/
theorem statusHistory_at_most_one_open (σ : Type) (creations : List (Nat × σ)) :
    openCount (mkHistory creations) ≤ 1 ∧
    ∀ (now : Nat) (s : σ), openCount (createStatus now s (mkHistory creations)) = 1 := by
  obtain ⟨hg, hc⟩ := mkHistory_invariant creations
  exact ⟨hc, fun now s => createStatus_openCount now s _ hg hc⟩

/-! More helper lemmas shared by several developments below. -/

theorem currentStatusCode_createStatus {σ : Type} (now : Nat) (s : σ) (h : Hist σ) :
    currentStatusCode (createStatus now s h) = some s := by
  simp [currentStatusCode, currentStatusRec, createStatus, newStatusRec, List.find?]

theorem closeFirstOpen_length {σ : Type} (now : Nat) :
    ∀ (h : Hist σ), (closeFirstOpen now h).length = h.length := by
  intro h
  induction h with
  | nil => rfl
  | cons r t ih =>
      by_cases hcl : closable r = true
      · simp [closeFirstOpen, hcl]
      · have hcl' : closable r = false := by
          cases hval : closable r
          · rfl
          · exact absurd hval hcl
        simp [closeFirstOpen, hcl', ih]

theorem createStatus_length {σ : Type} (now : Nat) (s : σ) (h : Hist σ) :
    (createStatus now s h).length = h.length + 1 := by
  simp [createStatus, closeFirstOpen_length]

/-! ## Transition validator (section 4.1)

The static transition tables and initial-state lists, transcribed from
`InvoiceStatusViewSet.transition` (apps/invoices/views/status_view.py) and
`ContractStatusViewSet.transition` (apps/contracts/views/status_view.py);
the identical tables also appear in the `create` endpoints. -/

/-- `valid_transitions` for invoices (status_view.py lines 398-408). -/
def invoice_valid_transitions : IStatus → List IStatus
  | .DRAFT => [.SUBMITTED, .CANCELLED]
  | .SUBMITTED => [.REVIEW, .DRAFT, .CANCELLED]
  | .REVIEW => [.PENDING_APPROVAL, .DRAFT, .REJECTED, .CANCELLED]
  | .PENDING_APPROVAL => [.APPROVED, .REJECTED, .CANCELLED]
  | .APPROVED => [.PAID, .CANCELLED]
  | .REJECTED => [.DRAFT, .CANCELLED]
  | .PAID => [.ARCHIVED]
  | .CANCELLED => [.ARCHIVED]
  | .ARCHIVED => []

/-- `valid_initial_states` for invoices (status_view.py line 412). -/
def invoice_valid_initial : List IStatus := [.DRAFT, .SUBMITTED]

/-- `valid_transitions` for contracts (contracts/views/status_view.py
lines 354-367). -/
def contract_valid_transitions : CStatus → List CStatus
  | .DRAFT => [.REVIEW, .PENDING_APPROVAL, .CANCELLED]
  | .REVIEW => [.DRAFT, .PENDING_APPROVAL, .APPROVED, .CANCELLED]
  | .PENDING_APPROVAL => [.APPROVED, .REVIEW, .DRAFT, .CANCELLED]
  | .APPROVED => [.SIGNED, .PENDING_APPROVAL, .CANCELLED]
  | .SIGNED => [.ACTIVE, .ON_HOLD, .CANCELLED]
  | .ACTIVE => [.COMPLETED, .TERMINATED, .ON_HOLD, .EXPIRED]
  | .ON_HOLD => [.ACTIVE, .TERMINATED, .CANCELLED]
  | .COMPLETED => [.ARCHIVED]
  | .TERMINATED => [.ARCHIVED]
  | .CANCELLED => [.ARCHIVED]
  | .EXPIRED => [.ARCHIVED]
  | .ARCHIVED => []

/-- `valid_initial_states` for contracts (contracts/views/status_view.py
line 371). -/
def contract_valid_initial : List CStatus := [.DRAFT, .REVIEW, .PENDING_APPROVAL]

/-- Legality of a requested transition per the static table: with no prior
status only the initial states are legal; otherwise the requested status
must be in the allowed set of the current one. -/
def invoiceLegal : Option IStatus → IStatus → Bool
  | none, req => decide (req ∈ invoice_valid_initial)
  | some c, req => decide (req ∈ invoice_valid_transitions c)

/-- Legality per the static contract table. -/
def contractLegal : Option CStatus → CStatus → Bool
  | none, req => decide (req ∈ contract_valid_initial)
  | some c, req => decide (req ∈ contract_valid_transitions c)

/-- Rejection outcomes of a transition endpoint. `invalidInitial` and
`invalidTransition` carry the allowed set named in the error message;
`forbidden` is a 403 from a permission check. -/
inductive TransErr (σ : Type) where
  | invalidInitial (allowed : List σ)
  | invalidTransition (current : σ) (allowed : List σ)
  | forbidden
deriving DecidableEq, Repr

/-- An invoice aggregate as the payment/status machinery sees it:
`total_amount`, the `is_paid` flag, `payment_date` and the status
history. -/
structure InvoiceAgg where
  total_amount : ℚ
  is_paid : Bool
  payment_date : Option Nat
  statuses : Hist IStatus
deriving DecidableEq, Repr

/-- A contract aggregate: only its status history matters here. -/
structure ContractAgg where
  statuses : Hist CStatus
deriving DecidableEq, Repr

/-- The accepted tail of `InvoiceStatusViewSet.transition` (status_view.py
lines 426-470): permission checks for APPROVED/REJECTED and PAID, then the
`InvoiceStatus` insert (closing the prior open record) and, for PAID, the
invoice update `is_paid = true, payment_date = today` (performed both by
`InvoiceStatus.save` and by the view; the combined effect is modelled
once). -/
def invoiceTransitionWrite (now : Nat) (req : IStatus) (canApprove canPay : Bool)
    (inv : InvoiceAgg) : Except (TransErr IStatus) InvoiceAgg :=
  if (req = .APPROVED ∨ req = .REJECTED) ∧ canApprove = false then .error .forbidden
  else if req = .PAID ∧ canPay = false then .error .forbidden
  else
    let inv1 := { inv with statuses := createStatus now req inv.statuses }
    if req = .PAID ∧ inv1.is_paid = false then
      .ok { inv1 with is_paid := true, payment_date := some now }
    else .ok inv1

/-- `InvoiceStatusViewSet.transition` (status_view.py lines 360-484):
validate the requested transition against the static table (initial-state
list when there is no current status), rejecting with an error naming the
allowed set, and only then run the permission checks and write. -/
def invoiceTransition (now : Nat) (req : IStatus) (canApprove canPay : Bool)
    (inv : InvoiceAgg) : Except (TransErr IStatus) InvoiceAgg :=
  match currentStatusCode inv.statuses with
  | none =>
      if req ∈ invoice_valid_initial then invoiceTransitionWrite now req canApprove canPay inv
      else .error (.invalidInitial invoice_valid_initial)
  | some c =>
      if req ∈ invoice_valid_transitions c then invoiceTransitionWrite now req canApprove canPay inv
      else .error (.invalidTransition c (invoice_valid_transitions c))

/-- `ContractStatusViewSet.transition` (contracts/views/status_view.py
lines 297-410): the tenant/supervisor/role permission check runs first,
then the transition is validated against the static table and, when legal,
a new `ContractStatus` is inserted (closing the prior open record). -/
def contractTransition (now : Nat) (req : CStatus) (hasPermission : Bool)
    (con : ContractAgg) : Except (TransErr CStatus) ContractAgg :=
  if hasPermission = false then .error .forbidden
  else
    match currentStatusCode con.statuses with
    | none =>
        if req ∈ contract_valid_initial then
          .ok { con with statuses := createStatus now req con.statuses }
        else .error (.invalidInitial contract_valid_initial)
    | some c =>
        if req ∈ contract_valid_transitions c then
          .ok { con with statuses := createStatus now req con.statuses }
        else .error (.invalidTransition c (contract_valid_transitions c))

theorem except_isOk_ok {ε α : Type} (a : α) : (Except.ok a : Except ε α).isOk = true := rfl

theorem except_isOk_error {ε α : Type} (e : ε) : (Except.error e : Except ε α).isOk = false := rfl

/-- C2: with the permission predicates granted, the transition endpoints
accept a requested status exactly when it is legal per the static
transition table (initial-state list when the aggregate has no current
status), and an illegal request is rejected with an error naming the
allowed set, without any status record being written (the error result
carries no new state). -/
theorem transition_validator_correct (now : Nat) (inv : InvoiceAgg) (req : IStatus)
    (con : ContractAgg) (reqC : CStatus) :
    ((invoiceTransition now req true true inv).isOk
        = invoiceLegal (currentStatusCode inv.statuses) req) ∧
    (currentStatusCode inv.statuses = none → invoiceLegal none req = false →
        invoiceTransition now req true true inv = .error (.invalidInitial invoice_valid_initial)) ∧
    (∀ c, currentStatusCode inv.statuses = some c → invoiceLegal (some c) req = false →
        invoiceTransition now req true true inv
          = .error (.invalidTransition c (invoice_valid_transitions c))) ∧
    ((contractTransition now reqC true con).isOk
        = contractLegal (currentStatusCode con.statuses) reqC) ∧
    (currentStatusCode con.statuses = none → contractLegal none reqC = false →
        contractTransition now reqC true con = .error (.invalidInitial contract_valid_initial)) ∧
    (∀ c, currentStatusCode con.statuses = some c → contractLegal (some c) reqC = false →
        contractTransition now reqC true con
          = .error (.invalidTransition c (contract_valid_transitions c))) := by
  refine ⟨?_, ?_, ?_, ?_, ?_, ?_⟩
  · cases hcur : currentStatusCode inv.statuses with
    | none =>
        simp only [invoiceTransition, hcur, invoiceLegal]
        by_cases hmem : req ∈ invoice_valid_initial
        · simp only [hmem, if_true, decide_eq_true hmem]
          simp [invoiceTransitionWrite]
          split <;> simp [except_isOk_ok]
        · simp [hmem, except_isOk_error]
    | some c =>
        simp only [invoiceTransition, hcur, invoiceLegal]
        by_cases hmem : req ∈ invoice_valid_transitions c
        · simp only [hmem, if_true, decide_eq_true hmem]
          simp [invoiceTransitionWrite]
          split <;> simp [except_isOk_ok]
        · simp [hmem, except_isOk_error]
  · intro hcur hleg
    simp only [invoiceLegal, decide_eq_false_iff_not] at hleg
    simp [invoiceTransition, hcur, hleg]
  · intro c hcur hleg
    simp only [invoiceLegal, decide_eq_false_iff_not] at hleg
    simp [invoiceTransition, hcur, hleg]
  · cases hcur : currentStatusCode con.statuses with
    | none =>
        simp only [contractTransition, hcur, contractLegal]
        by_cases hmem : reqC ∈ contract_valid_initial
        · simp [hmem, except_isOk_ok]
        · simp [hmem, except_isOk_error]
    | some c =>
        simp only [contractTransition, hcur, contractLegal]
        by_cases hmem : reqC ∈ contract_valid_transitions c
        · simp [hmem, except_isOk_ok]
        · simp [hmem, except_isOk_error]
  · intro hcur hleg
    simp only [contractLegal, decide_eq_false_iff_not] at hleg
    simp [contractTransition, hcur, hleg]
  · intro c hcur hleg
    simp only [contractLegal, decide_eq_false_iff_not] at hleg
    simp [contractTransition, hcur, hleg]

/-- Witness for C2: Scenario A (an invoice with no status may not jump to
PENDING_APPROVAL) and Scenario E (an ARCHIVED contract may not become
ACTIVE, the allowed set being empty) at concrete inputs. -/
theorem transition_validator_correct_witness :
    invoiceTransition 7 .PENDING_APPROVAL true true ⟨100, false, none, []⟩
      = .error (.invalidInitial invoice_valid_initial) ∧
    contractTransition 7 .ACTIVE true ⟨[⟨.ARCHIVED, 1, none, true, false⟩]⟩
      = .error (.invalidTransition .ARCHIVED []) := by
  constructor
  · exact (transition_validator_correct 7 ⟨100, false, none, []⟩ .PENDING_APPROVAL
      ⟨[]⟩ .ACTIVE).2.1 (by decide) (by decide)
  · have h := (transition_validator_correct 7 ⟨100, false, none, []⟩ .PENDING_APPROVAL
      ⟨[⟨.ARCHIVED, 1, none, true, false⟩]⟩ .ACTIVE).2.2.2.2.2 .ARCHIVED (by decide) (by decide)
    simpa [contract_valid_transitions] using h

/-! ## Line items and the aggregator (section 4.3) -/

/-- An `InvoiceItem` row (apps/invoices/models/item.py): the input fields
`quantity`, `unit_price`, `tax_percentage`, `discount_percentage`, the
stored derived fields, and the soft-delete flags. -/
structure InvoiceItem where
  quantity : ℚ
  unit_price : ℚ
  tax_percentage : ℚ
  tax_amount : ℚ
  discount_percentage : ℚ
  discount_amount : ℚ
  subtotal : ℚ
  total : ℚ
  is_active : Bool
  is_deleted : Bool
deriving DecidableEq, Repr

/-- The derived-field computation of `InvoiceItem.save` (item.py lines
112-124): `subtotal` is always recomputed; `tax_amount` and
`discount_amount` are recomputed only when the respective percentage is
strictly positive (otherwise the previously stored amount is kept);
`total` is then `subtotal + tax_amount - discount_amount`. -/
def itemComputeDerived (it : InvoiceItem) : InvoiceItem :=
  let sub := it.quantity * it.unit_price
  let tax := if it.tax_percentage > 0 then sub * (it.tax_percentage / 100) else it.tax_amount
  let disc :=
    if it.discount_percentage > 0 then sub * (it.discount_percentage / 100)
    else it.discount_amount
  { it with subtotal := sub, tax_amount := tax, discount_amount := disc,
            total := sub + tax - disc }

/-- The totals stored on the owning `Invoice`. -/
structure InvoiceTotals where
  subtotal : ℚ
  tax_amount : ℚ
  discount_amount : ℚ
  total_amount : ℚ
deriving DecidableEq, Repr

/-- The queryset `InvoiceItem.objects.filter(invoice=..., is_active=True,
is_deleted=False)` used by every totals recomputation. -/
def activeItems (items : List InvoiceItem) : List InvoiceItem :=
  items.filter (fun it => it.is_active && !it.is_deleted)

/-- `Invoice.save` (invoice.py lines 198-203): if `subtotal` is non-zero
(truthy) and `total_amount` is zero (falsy), derive `total_amount`. -/
def invoiceModelSave (inv : InvoiceTotals) : InvoiceTotals :=
  if inv.subtotal ≠ 0 ∧ inv.total_amount = 0 then
    { inv with total_amount := inv.subtotal + inv.tax_amount - inv.discount_amount }
  else inv

/-- `InvoiceItem.update_invoice_totals` (item.py lines 132-155), identical
to the `item_post_save` / `item_post_delete` signal bodies
(invoices/signals.py lines 112-169): sum the stored `subtotal`,
`tax_amount` and `discount_amount` over all active non-deleted items,
set `total_amount = subtotal + tax_amount - discount_amount`, and write
back through `Invoice.save`. -/
def recomputeInvoiceTotals (items : List InvoiceItem) (inv : InvoiceTotals) : InvoiceTotals :=
  let its := activeItems items
  let s := (its.map (·.subtotal)).sum
  let t := (its.map (·.tax_amount)).sum
  let d := (its.map (·.discount_amount)).sum
  invoiceModelSave { inv with subtotal := s, tax_amount := t, discount_amount := d,
                              total_amount := s + t - d }

/-- Item create through the API (`InvoiceItemViewSet.create` →
`InvoiceItem.save`): compute the derived fields, append the item, then
recompute the invoice totals. -/
def itemCreateOp (raw : InvoiceItem) (items : List InvoiceItem) (inv : InvoiceTotals) :
    List InvoiceItem × InvoiceTotals :=
  let items2 := items ++ [itemComputeDerived raw]
  (items2, recomputeInvoiceTotals items2 inv)

/-- Item field update through the API: apply the field changes `f` to the
item at index `i`, recompute its derived fields in `save`, then recompute
the invoice totals. -/
def itemUpdateOp (i : Nat) (f : InvoiceItem → InvoiceItem) (items : List InvoiceItem)
    (inv : InvoiceTotals) : List InvoiceItem × InvoiceTotals :=
  let items2 := items.mapIdx (fun j it => if j = i then itemComputeDerived (f it) else it)
  (items2, recomputeInvoiceTotals items2 inv)

/-- Item soft-delete (`InvoiceItemViewSet.destroy`, item_view.py lines
263-314): set `is_active = false, is_deleted = true`, call `save` (which
recomputes the derived fields and the invoice totals) and then
`update_invoice_totals` once more; the recomputation is idempotent, so it
is modelled once. -/
def itemSoftDeleteOp (i : Nat) (items : List InvoiceItem) (inv : InvoiceTotals) :
    List InvoiceItem × InvoiceTotals :=
  let items2 := items.mapIdx (fun j it =>
    if j = i then itemComputeDerived { it with is_active := false, is_deleted := true } else it)
  (items2, recomputeInvoiceTotals items2 inv)

/-- The invariant of section 4.3 / section 8: each invoice total equals the
sum of the corresponding stored item field over the active non-deleted
items, and `total_amount = subtotal + tax_amount - discount_amount`. -/
def TotalsInvariant (items : List InvoiceItem) (inv : InvoiceTotals) : Prop :=
  inv.subtotal = ((activeItems items).map (·.subtotal)).sum ∧
  inv.tax_amount = ((activeItems items).map (·.tax_amount)).sum ∧
  inv.discount_amount = ((activeItems items).map (·.discount_amount)).sum ∧
  inv.total_amount = inv.subtotal + inv.tax_amount - inv.discount_amount

theorem invoiceModelSave_fixed (items : List InvoiceItem) (inv : InvoiceTotals) :
    TotalsInvariant items (recomputeInvoiceTotals items inv) := by
  simp only [recomputeInvoiceTotals, invoiceModelSave, TotalsInvariant]
  split <;> simp

/-- C3: after an item create, field update, or soft-delete, the owning
invoice's `subtotal`, `tax_amount` and `discount_amount` each equal the
sum of the corresponding stored field over the active non-deleted items,
with `total_amount = subtotal + tax_amount - discount_amount`; and when
no active item remains (e.g. the last active item was removed) all four
totals are zero. -/
theorem itemOps_preserve_totals_invariant (raw : InvoiceItem) (items : List InvoiceItem)
    (inv : InvoiceTotals) (i : Nat) (f : InvoiceItem → InvoiceItem) :
    TotalsInvariant (itemCreateOp raw items inv).1 (itemCreateOp raw items inv).2 ∧
    TotalsInvariant (itemUpdateOp i f items inv).1 (itemUpdateOp i f items inv).2 ∧
    TotalsInvariant (itemSoftDeleteOp i items inv).1 (itemSoftDeleteOp i items inv).2 ∧
    (activeItems (itemSoftDeleteOp i items inv).1 = [] →
      (itemSoftDeleteOp i items inv).2 = ⟨0, 0, 0, 0⟩) := by
  refine ⟨?_, ?_, ?_, ?_⟩
  · exact invoiceModelSave_fixed _ inv
  · exact invoiceModelSave_fixed _ inv
  · exact invoiceModelSave_fixed _ inv
  intro hempty
  simp only [itemSoftDeleteOp] at hempty ⊢
  simp only [recomputeInvoiceTotals, hempty, invoiceModelSave]
  norm_num

/-- Witness for C3: soft-deleting the only active item of an invoice
zeroes all four totals. -/
theorem itemOps_preserve_totals_invariant_witness :
    (itemSoftDeleteOp 0 [⟨1, 50, 0, 0, 0, 0, 50, 50, true, false⟩] ⟨50, 0, 0, 50⟩).2
      = ⟨0, 0, 0, 0⟩ :=
  (itemOps_preserve_totals_invariant ⟨1, 50, 0, 0, 0, 0, 50, 50, true, false⟩
    [⟨1, 50, 0, 0, 0, 0, 50, 50, true, false⟩] ⟨50, 0, 0, 50⟩ 0 id).2.2.2 (by decide)

/-- The item of Scenario B: quantity 2, unit price 100, tax 10%, no
discount, derived fields not yet computed. -/
def scenarioBItem : InvoiceItem :=
  { quantity := 2, unit_price := 100, tax_percentage := 10, tax_amount := 0,
    discount_percentage := 0, discount_amount := 0, subtotal := 0, total := 0,
    is_active := true, is_deleted := false }

/-- An item whose `tax_amount` was stored as 20 while its
`tax_percentage` has been set back to 0: the percentage guard of
`InvoiceItem.save` then keeps the stale 20. -/
def staleTaxItem : InvoiceItem :=
  { quantity := 2, unit_price := 100, tax_percentage := 0, tax_amount := 20,
    discount_percentage := 0, discount_amount := 0, subtotal := 200, total := 220,
    is_active := true, is_deleted := false }

/-- Counterexample to C4 as stated: for an item updated to
`tax_percentage = 0` whose stored `tax_amount` is 20, `save` keeps
`tax_amount = 20` instead of the claimed
`subtotal * tax_percentage / 100 = 0`, and consequently stores
`total = 220` instead of the claimed `200`. -/
theorem item_derived_fields_counterexample :
    (itemComputeDerived staleTaxItem).tax_amount = 20 ∧
    (itemComputeDerived staleTaxItem).subtotal * (staleTaxItem.tax_percentage / 100) = 0 ∧
    (itemComputeDerived staleTaxItem).total = 220 := by
  refine ⟨?_, ?_, ?_⟩ <;> norm_num [itemComputeDerived, staleTaxItem]

/-- C4 (amended): on every save the stored derived fields satisfy
`subtotal = quantity * unit_price` and
`total = subtotal + tax_amount - discount_amount`, where `tax_amount` is
`subtotal * tax_percentage / 100` when `tax_percentage > 0` but keeps its
previous stored value otherwise, and likewise for `discount_amount`; in
particular Scenario B (quantity 2, unit price 100, tax 10%, discount 0%,
no previously stored amounts) yields subtotal 200, tax 20, total 220. -/
theorem item_derived_fields (it : InvoiceItem) :
    (itemComputeDerived it).subtotal = it.quantity * it.unit_price ∧
    (itemComputeDerived it).tax_amount
      = (if it.tax_percentage > 0
          then (itemComputeDerived it).subtotal * (it.tax_percentage / 100)
          else it.tax_amount) ∧
    (itemComputeDerived it).discount_amount
      = (if it.discount_percentage > 0
          then (itemComputeDerived it).subtotal * (it.discount_percentage / 100)
          else it.discount_amount) ∧
    (itemComputeDerived it).total
      = (itemComputeDerived it).subtotal + (itemComputeDerived it).tax_amount
        - (itemComputeDerived it).discount_amount ∧
    (itemComputeDerived scenarioBItem).subtotal = 200 ∧
    (itemComputeDerived scenarioBItem).tax_amount = 20 ∧
    (itemComputeDerived scenarioBItem).total = 220 := by
  have hscen : (itemComputeDerived scenarioBItem).subtotal = 200 ∧
      (itemComputeDerived scenarioBItem).tax_amount = 20 ∧
      (itemComputeDerived scenarioBItem).total = 220 := by
    norm_num [itemComputeDerived, scenarioBItem]
  exact ⟨rfl, rfl, rfl, rfl, hscen.1, hscen.2.1, hscen.2.2⟩

/-! ## Payment application engine (section 4.5) -/

/-- A `Payment` row (apps/payments/models/payment.py): its amount, whether
it was declared a partial payment, and the soft-delete flags. -/
structure PaymentRec where
  amount : ℚ
  isPartialPay : Bool
  is_active : Bool
  is_deleted : Bool
deriving DecidableEq, Repr

/-- `Payment.objects.filter(invoice=..., is_active=True, is_deleted=False)
.aggregate(Sum("amount"))`, the total of the active payments (with `or 0`
for the empty case, which is the empty sum here). -/
def activePaymentsSum (ps : List PaymentRec) : ℚ :=
  ((ps.filter (fun p => p.is_active && !p.is_deleted)).map (·.amount)).sum

/-- Validation failures of `PaymentCreateSerializer.validate`. -/
inductive PaymentErr where
  | alreadyPaid
  | overPayment
  | underPayment
deriving DecidableEq, Repr

/-- `PaymentCreateSerializer.validate`
(apps/payments/serializers/payment_serializer.py lines 127-156): reject if
the invoice is already paid; compute
`remaining = invoice.total_amount - total_paid` over active payments;
reject if `amount > remaining`; reject if the payment is not partial and
`amount < remaining`. No lower bound on `amount` is checked. -/
def validatePaymentCreate (inv : InvoiceAgg) (ps : List PaymentRec) (amount : ℚ)
    (isPartialPay : Bool) : Option PaymentErr :=
  if inv.is_paid then some .alreadyPaid
  else
    let remaining := inv.total_amount - activePaymentsSum ps
    if amount > remaining then some .overPayment
    else if isPartialPay = false ∧ amount < remaining then some .underPayment
    else none

/-- `Payment._update_invoice_status` (payment.py lines 119-153): after a
payment save, recompute the total of active payments; if it reaches
`total_amount` and the invoice is not yet paid, set
`is_paid = true, payment_date = today` and, unless the current status
already is PAID, create a PAID status record. -/
def paymentUpdateInvoiceStatus (now : Nat) (inv : InvoiceAgg) (ps : List PaymentRec) :
    InvoiceAgg :=
  let total_paid := activePaymentsSum ps
  if total_paid ≥ inv.total_amount ∧ inv.is_paid = false then
    let inv1 : InvoiceAgg := { inv with is_paid := true, payment_date := some now }
    match currentStatusCode inv1.statuses with
    | some .PAID => inv1
    | _ => { inv1 with statuses := createStatus now .PAID inv1.statuses }
  else inv

/-- `recordPayment`: `PaymentViewSet.create` → serializer validation →
`Payment.objects.create` (whose `save` runs
`_update_invoice_status`). On a validation error no payment is created
and no state changes. -/
def recordPayment (now : Nat) (inv : InvoiceAgg) (ps : List PaymentRec) (amount : ℚ)
    (isPartialPay : Bool) : Except PaymentErr (InvoiceAgg × List PaymentRec) :=
  match validatePaymentCreate inv ps amount isPartialPay with
  | some e => .error e
  | none =>
      let ps2 := ps ++ [⟨amount, isPartialPay, true, false⟩]
      .ok (paymentUpdateInvoiceStatus now inv ps2, ps2)

theorem activePaymentsSum_append_active (ps : List PaymentRec) (amount : ℚ)
    (b : Bool) :
    activePaymentsSum (ps ++ [⟨amount, b, true, false⟩])
      = activePaymentsSum ps + amount := by
  simp [activePaymentsSum, List.filter_append]

/-- C5: for an invoice not yet paid, recording a payment of exactly the
remaining balance with `is_partial = false` succeeds, marks the invoice
`is_paid = true` with `payment_date = today`, and, when the current status
was not already PAID, appends a new PAID status record (which becomes the
current status); when the current status already was PAID the history is
left unchanged. -/
theorem recordPayment_full_marks_paid (now : Nat) (inv : InvoiceAgg)
    (ps : List PaymentRec) (hnot : inv.is_paid = false) :
    ∃ inv2 ps2,
      recordPayment now inv ps (inv.total_amount - activePaymentsSum ps) false
        = .ok (inv2, ps2) ∧
      inv2.is_paid = true ∧
      inv2.payment_date = some now ∧
      (currentStatusCode inv.statuses ≠ some .PAID →
        inv2.statuses = createStatus now .PAID inv.statuses ∧
        currentStatusCode inv2.statuses = some .PAID) ∧
      (currentStatusCode inv.statuses = some .PAID → inv2.statuses = inv.statuses) := by
  have hval : validatePaymentCreate inv ps (inv.total_amount - activePaymentsSum ps) false
      = none := by
    simp [validatePaymentCreate, hnot]
  have hsum : activePaymentsSum
      (ps ++ [⟨inv.total_amount - activePaymentsSum ps, false, true, false⟩])
      = inv.total_amount := by
    rw [activePaymentsSum_append_active]
    ring
  refine ⟨paymentUpdateInvoiceStatus now inv
      (ps ++ [⟨inv.total_amount - activePaymentsSum ps, false, true, false⟩]),
      ps ++ [⟨inv.total_amount - activePaymentsSum ps, false, true, false⟩],
      ?_, ?_, ?_, ?_, ?_⟩
  · simp only [recordPayment, hval]
  all_goals
    simp only [paymentUpdateInvoiceStatus, hsum, hnot, le_refl, and_self, if_true, ge_iff_le]
  · split <;> rfl
  · split <;> rfl
  · intro hne
    split
    next heq => exact absurd heq hne
    next => exact ⟨rfl, currentStatusCode_createStatus now .PAID inv.statuses⟩
  · intro heq
    split
    next => rfl
    next hne => exact absurd heq hne

/-- Witness for C5 (Scenario C, first half): an unpaid invoice of total
1000 with current status APPROVED; a payment of 1000 with
`is_partial = false` marks it paid and appends a PAID record. -/
theorem recordPayment_full_marks_paid_witness :
    ∃ inv2 ps2,
      recordPayment 9 ⟨1000, false, none, [⟨.APPROVED, 1, none, true, false⟩]⟩ [] 1000 false
        = .ok (inv2, ps2) ∧
      inv2.is_paid = true ∧
      inv2.payment_date = some 9 ∧
      currentStatusCode inv2.statuses = some .PAID := by
  obtain ⟨inv2, ps2, hok, hpaid, hdate, hne, -⟩ :=
    recordPayment_full_marks_paid 9 ⟨1000, false, none, [⟨.APPROVED, 1, none, true, false⟩]⟩ [] rfl
  have hcur : currentStatusCode
      ([⟨.APPROVED, 1, none, true, false⟩] : Hist IStatus) ≠ some .PAID := by decide
  have h1000 : (1000 : ℚ) - activePaymentsSum [] = 1000 := by
    norm_num [activePaymentsSum]
  rw [h1000] at hok
  exact ⟨inv2, ps2, hok, hpaid, hdate, (hne hcur).2⟩

/-- Counterexample to C6 as stated: a payment of amount -5 (≤ 0) against
an unpaid invoice with remaining balance 100, declared partial, passes
validation and is created; the claim says any `amount <= 0` must be
rejected. -/
theorem recordPayment_negative_accepted :
    (recordPayment 0 ⟨100, false, none, []⟩ [] (-5) true).isOk = true ∧
    (-5 : ℚ) ≤ 0 := by
  constructor
  · norm_num [recordPayment, validatePaymentCreate, activePaymentsSum, except_isOk_ok]
  · norm_num

/-- C6 (amended): payment creation fails exactly when the invoice is
already paid, or the amount exceeds the remaining balance, or the payment
is declared non-partial and the amount is below the remaining balance;
each failure returns the corresponding error and creates no payment, and
in all other cases (including non-positive amounts, which are never
checked) the payment is created. -/
theorem recordPayment_validation (now : Nat) (inv : InvoiceAgg) (ps : List PaymentRec)
    (amount : ℚ) (isPartialPay : Bool) :
    ((recordPayment now inv ps amount isPartialPay).isOk = true ↔
      (inv.is_paid = false ∧ amount ≤ inv.total_amount - activePaymentsSum ps ∧
        (isPartialPay = true ∨ amount = inv.total_amount - activePaymentsSum ps))) ∧
    (inv.is_paid = true →
      recordPayment now inv ps amount isPartialPay = .error .alreadyPaid) ∧
    (inv.is_paid = false → amount > inv.total_amount - activePaymentsSum ps →
      recordPayment now inv ps amount isPartialPay = .error .overPayment) ∧
    (inv.is_paid = false → isPartialPay = false →
      amount < inv.total_amount - activePaymentsSum ps →
      recordPayment now inv ps amount isPartialPay = .error .underPayment) := by
  refine ⟨?_, ?_, ?_, ?_⟩
  · constructor
    · intro hok
      simp only [recordPayment] at hok
      by_cases hp : inv.is_paid
      · simp [validatePaymentCreate, hp, except_isOk_error] at hok
      · refine ⟨by simp [hp], ?_⟩
        by_cases hover : amount > inv.total_amount - activePaymentsSum ps
        · simp [validatePaymentCreate, hp, hover, except_isOk_error] at hok
        · constructor
          · exact le_of_not_lt hover
          · by_cases hpart : isPartialPay
            · exact Or.inl hpart
            · by_cases hunder : amount < inv.total_amount - activePaymentsSum ps
              · simp [validatePaymentCreate, hp, hover, hpart, hunder,
                  except_isOk_error] at hok
              · exact Or.inr (le_antisymm (le_of_not_lt hover) (le_of_not_lt hunder))
    · rintro ⟨hp, hle, hrest⟩
      have hover : ¬ amount > inv.total_amount - activePaymentsSum ps := not_lt.mpr hle
      have hunder : ¬ (isPartialPay = false ∧ amount < inv.total_amount - activePaymentsSum ps) := by
        rintro ⟨hpf, hlt⟩
        cases hrest with
        | inl h => rw [h] at hpf; exact absurd hpf (by simp)
        | inr h => exact absurd h (ne_of_lt hlt)
      simp [recordPayment, validatePaymentCreate, hp, hover, hunder, except_isOk_ok]
  · intro hp
    simp [recordPayment, validatePaymentCreate, hp]
  · intro hp hover
    simp [recordPayment, validatePaymentCreate, hp, hover, not_lt.mpr (le_of_lt hover)]
  · intro hp hpart hunder
    simp [recordPayment, validatePaymentCreate, hp, hpart, hunder, not_lt.mpr (le_of_lt hunder)]

/-- Witness for C6 (amended): an over-payment (150 against remaining 100)
is rejected with OverPayment, and an exact non-partial payment of the
remaining balance is accepted. -/
theorem recordPayment_validation_witness :
    recordPayment 0 ⟨100, false, none, []⟩ [] 150 false = .error .overPayment ∧
    (recordPayment 0 ⟨100, false, none, []⟩ [] 100 false).isOk = true := by
  constructor
  · exact (recordPayment_validation 0 ⟨100, false, none, []⟩ [] 150 false).2.2.1 rfl
      (by norm_num [activePaymentsSum])
  · exact ((recordPayment_validation 0 ⟨100, false, none, []⟩ [] 100 false).1).mpr
      ⟨rfl, by norm_num [activePaymentsSum], Or.inr (by norm_num [activePaymentsSum])⟩

/-! ## Payment deletion (C7)

`PaymentViewSet.destroy` (apps/payments/views/payment_view.py lines
244-281) performs a soft delete: it sets `is_active = False,
is_deleted = True` and calls `instance.save()`. `Payment.save` then runs
`_update_invoice_status` (a no-op for a paid invoice). The reversal logic
lives in the `payment_post_delete` receiver (apps/payments/signals.py
lines 56-103), which Django fires only on hard deletes
(`post_delete`), never on the soft-delete `save()` of the destroy
endpoint. Both paths are modelled. -/

/-- The soft-delete `destroy` endpoint: flag the payment at index `i` as
inactive/deleted and run `Payment.save` → `_update_invoice_status`. (The
endpoint's guard that the payment's verification status is PENDING or
REJECTED is assumed to pass.) No `post_delete` signal fires. -/
def paymentSoftDeleteOp (now : Nat) (inv : InvoiceAgg) (ps : List PaymentRec) (i : Nat) :
    InvoiceAgg × List PaymentRec :=
  let ps2 := ps.mapIdx (fun j p =>
    if j = i then { p with is_active := false, is_deleted := true } else p)
  (paymentUpdateInvoiceStatus now inv ps2, ps2)

/-- The `payment_post_delete` receiver (payments/signals.py lines 56-103),
as it would run on a hard delete with `remaining` the payments left: if
the invoice was paid and the remaining active total drops below
`total_amount`, and the current status is PAID, reset
`is_paid = false, payment_date = null` and create an APPROVED status
record. -/
def paymentPostDeleteHook (now : Nat) (inv : InvoiceAgg) (remaining : List PaymentRec) :
    InvoiceAgg :=
  if inv.is_paid then
    let total_paid := activePaymentsSum remaining
    if total_paid < inv.total_amount then
      match currentStatusCode inv.statuses with
      | some .PAID =>
          let inv1 : InvoiceAgg := { inv with is_paid := false, payment_date := none }
          { inv1 with statuses := createStatus now .APPROVED inv1.statuses }
      | _ => inv
    else inv
  else inv

/-- The paid invoice of Scenario C: total 1000, paid, current status
PAID (after an earlier APPROVED record was closed). -/
def scenarioCInvoice : InvoiceAgg :=
  { total_amount := 1000, is_paid := true, payment_date := some 10,
    statuses := [⟨.PAID, 5, none, true, false⟩, ⟨.APPROVED, 1, some 5, true, false⟩] }

/-- C7 (code bug): deleting through the API the payment of 1000 that
completed the Scenario C invoice leaves the invoice completely unchanged —
still `is_paid = true` with current status PAID and no APPROVED reversal
record — because the reversal lives in a `post_delete` receiver that a
soft delete never fires; the receiver itself, were it run on the same
state, would perform exactly the reversal the claim describes. -/
theorem paymentSoftDelete_no_reversal :
    (paymentSoftDeleteOp 20 scenarioCInvoice [⟨1000, false, true, false⟩] 0).1
      = scenarioCInvoice ∧
    activePaymentsSum (paymentSoftDeleteOp 20 scenarioCInvoice
      [⟨1000, false, true, false⟩] 0).2 = 0 ∧
    (paymentPostDeleteHook 20 scenarioCInvoice []).is_paid = false ∧
    (paymentPostDeleteHook 20 scenarioCInvoice []).payment_date = none ∧
    currentStatusCode (paymentPostDeleteHook 20 scenarioCInvoice []).statuses
      = some .APPROVED := by
  refine ⟨?_, ?_, ?_, ?_, ?_⟩ <;>
    norm_num [paymentSoftDeleteOp, paymentPostDeleteHook, paymentUpdateInvoiceStatus,
      activePaymentsSum, scenarioCInvoice, currentStatusCode, currentStatusRec,
      createStatus, closeFirstOpen, closable, newStatusRec, List.find?]

/-! ## Approval workflow (section 4.4) -/

/-- `InvoiceApproval.APPROVAL_TYPES` (apps/invoices/models/approval.py). -/
inductive ApprovalType where
  | REVIEW
  | FIRST_APPROVAL
  | SECOND_APPROVAL
  | FINANCIAL_APPROVAL
  | FINAL_APPROVAL
deriving DecidableEq, Repr

/-- `InvoiceApproval.APPROVAL_RESULTS`. -/
inductive ApprovalResult where
  | PENDING
  | APPROVED
  | REJECTED
  | RETURNED
deriving DecidableEq, Repr

/-- An `InvoiceApproval` row: its stage, result, and soft-delete flags. -/
structure Approval where
  approval_type : ApprovalType
  result : ApprovalResult
  is_active : Bool
  is_deleted : Bool
deriving DecidableEq, Repr

/-- `InvoiceApproval.objects.filter(invoice=..., result="PENDING",
is_active=True, is_deleted=False).exists()`. -/
def anyPending (l : List Approval) : Bool :=
  l.any (fun a => a.result = .PENDING && a.is_active && !a.is_deleted)

/-- Same query with `result="REJECTED"`. -/
def anyRejected (l : List Approval) : Bool :=
  l.any (fun a => a.result = .REJECTED && a.is_active && !a.is_deleted)

/-- The `approval_post_save` receiver (apps/invoices/signals.py lines
45-109), fired by `approval.save()`; `allApprovals` are all approvals of
the invoice including the just-saved `a`. When the saved result is
APPROVED or REJECTED and no approval is still PENDING: if some approval
is REJECTED and the current status exists and is not REJECTED, create a
REJECTED record; if none is REJECTED, create APPROVED on FINAL_APPROVAL
when the current status is PENDING_APPROVAL, or PENDING_APPROVAL on
FIRST_APPROVAL when the current status is REVIEW. -/
def approvalPostSave (now : Nat) (a : Approval) (allApprovals : List Approval)
    (st : Hist IStatus) : Hist IStatus :=
  if a.result = .APPROVED ∨ a.result = .REJECTED then
    if anyPending allApprovals then st
    else
      match currentStatusCode st with
      | none => st
      | some c =>
          if anyRejected allApprovals then
            if c ≠ .REJECTED then createStatus now .REJECTED st else st
          else
            if a.approval_type = .FINAL_APPROVAL ∧ c = .PENDING_APPROVAL then
              createStatus now .APPROVED st
            else if a.approval_type = .FIRST_APPROVAL ∧ c = .REVIEW then
              createStatus now .PENDING_APPROVAL st
            else st
  else st

/-- Failure outcomes of the approve/reject endpoints. -/
inductive ApprovalErr where
  | alreadyResolved
  | forbidden
  | missingReason
deriving DecidableEq, Repr

/-- The status cascade run by a successful `approve`
(approval_view.py lines 301-357): `approval.save()` first fires
`approval_post_save`, then the view itself re-checks pending/rejected and,
when neither remains, creates APPROVED on FINAL_APPROVAL *without looking
at the current status*, or PENDING_APPROVAL on FIRST_APPROVAL when the
current status (possibly just advanced by the signal) is REVIEW. -/
def approveStatusCascade (now : Nat) (aty : ApprovalType) (others : List Approval)
    (st : Hist IStatus) : Hist IStatus :=
  let a2 : Approval := ⟨aty, .APPROVED, true, false⟩
  let allApprovals := a2 :: others
  let st1 := approvalPostSave now a2 allApprovals st
  if anyPending allApprovals then st1
  else if anyRejected allApprovals then st1
  else if aty = .FINAL_APPROVAL then createStatus now .APPROVED st1
  else if aty = .FIRST_APPROVAL then
    match currentStatusCode st1 with
    | some .REVIEW => createStatus now .PENDING_APPROVAL st1
    | _ => st1
  else st1

/-- The status cascade run by a successful `reject`
(approval_view.py lines 394-418): `approval.save()` fires
`approval_post_save`, and then the view unconditionally creates a
REJECTED status record. -/
def rejectStatusCascade (now : Nat) (aty : ApprovalType) (others : List Approval)
    (st : Hist IStatus) : Hist IStatus :=
  let a2 : Approval := ⟨aty, .REJECTED, true, false⟩
  let st1 := approvalPostSave now a2 (a2 :: others) st
  createStatus now .REJECTED st1

/-- `InvoiceApprovalViewSet.approve` (approval_view.py lines 275-359):
refuse if the approval is no longer PENDING, refuse if the actor is not
the assigned approver, otherwise set `result = APPROVED` and run the
cascade. `others` are the invoice's other approvals. -/
def approveInvoiceApproval (now : Nat) (actorIsApprover : Bool) (a : Approval)
    (others : List Approval) (st : Hist IStatus) :
    Except ApprovalErr (Approval × Hist IStatus) :=
  if a.result ≠ .PENDING then .error .alreadyResolved
  else if actorIsApprover = false then .error .forbidden
  else .ok ({ a with result := .APPROVED },
            approveStatusCascade now a.approval_type others st)

/-- `InvoiceApprovalViewSet.reject` (approval_view.py lines 361-420):
refuse if the approval is no longer PENDING, refuse if the actor is not
the assigned approver, refuse if no reason (`comments`) was supplied,
otherwise set `result = REJECTED` and run the cascade. -/
def rejectInvoiceApproval (now : Nat) (actorIsApprover : Bool) (comments : String)
    (a : Approval) (others : List Approval) (st : Hist IStatus) :
    Except ApprovalErr (Approval × Hist IStatus) :=
  if a.result ≠ .PENDING then .error .alreadyResolved
  else if actorIsApprover = false then .error .forbidden
  else if comments = "" then .error .missingReason
  else .ok ({ a with result := .REJECTED },
            rejectStatusCascade now a.approval_type others st)

/-- A pending FINAL_APPROVAL whose sibling FIRST_APPROVAL is still
pending, on an invoice currently in PENDING_APPROVAL. -/
def c8Approval : Approval := ⟨.FINAL_APPROVAL, .PENDING, true, false⟩

/-- The still-pending earlier-stage sibling of `c8Approval`. -/
def c8Others : List Approval := [⟨.FIRST_APPROVAL, .PENDING, true, false⟩]

/-- The status history for the C8 counterexample: current status
PENDING_APPROVAL. -/
def c8Hist : Hist IStatus := [⟨.PENDING_APPROVAL, 3, none, true, false⟩]

/-- Counterexample to C8 as stated: rejecting FINAL_APPROVAL while the
equal-or-earlier-stage FIRST_APPROVAL is still PENDING nevertheless
transitions the invoice to REJECTED (the endpoint appends the REJECTED
record unconditionally), although the claim allows the REJECTED
transition only when no pending approvals of equal-or-earlier stage
remain. -/
theorem approval_resolution_counterexample :
    anyPending c8Others = true ∧
    (rejectInvoiceApproval 9 true "motivo" c8Approval c8Others c8Hist).toOption.map
        (fun r => currentStatusCode r.2) = some (some .REJECTED) := by
  constructor
  · rfl
  · rfl

/-- C8 (amended): a successful `reject` always makes REJECTED the current
status, regardless of other pending approvals or stages. A successful
`approve` behaves as follows. With other approvals still PENDING, the
history is unchanged. With none PENDING but some REJECTED, a REJECTED
record is appended unless the current status already is REJECTED (or the
invoice has no current status). With none PENDING and none REJECTED:
FINAL_APPROVAL appends an APPROVED record regardless of the current
status (twice — once by the post-save signal, once by the endpoint — when
the current status was PENDING_APPROVAL, otherwise once), making APPROVED
current; FIRST_APPROVAL advances REVIEW to PENDING_APPROVAL and otherwise
changes nothing; the remaining approval types change nothing. -/
theorem approval_resolution_cascade (now : Nat) (aty : ApprovalType)
    (others : List Approval) (st : Hist IStatus) :
    (currentStatusCode (rejectStatusCascade now aty others st) = some .REJECTED) ∧
    (anyPending others = true → approveStatusCascade now aty others st = st) ∧
    (anyPending others = false → anyRejected others = true →
      ∀ c, currentStatusCode st = some c → c ≠ .REJECTED →
        approveStatusCascade now aty others st = createStatus now .REJECTED st) ∧
    (anyPending others = false → anyRejected others = true →
      (currentStatusCode st = some .REJECTED ∨ currentStatusCode st = none) →
        approveStatusCascade now aty others st = st) ∧
    (anyPending others = false → anyRejected others = false →
      currentStatusCode (approveStatusCascade now .FINAL_APPROVAL others st)
          = some .APPROVED ∧
      (approveStatusCascade now .FINAL_APPROVAL others st).length
          = st.length + (if currentStatusCode st = some .PENDING_APPROVAL then 2 else 1)) ∧
    (anyPending others = false → anyRejected others = false →
      (currentStatusCode st = some .REVIEW →
        approveStatusCascade now .FIRST_APPROVAL others st
          = createStatus now .PENDING_APPROVAL st) ∧
      (currentStatusCode st ≠ some .REVIEW →
        approveStatusCascade now .FIRST_APPROVAL others st = st)) ∧
    (anyPending others = false → anyRejected others = false →
      (aty = .REVIEW ∨ aty = .SECOND_APPROVAL ∨ aty = .FINANCIAL_APPROVAL) →
        approveStatusCascade now aty others st = st) := by
  have hpend : ∀ (r : ApprovalResult) (t : ApprovalType),
      r ≠ .PENDING → anyPending (⟨t, r, true, false⟩ :: others) = anyPending others := by
    intro r t hr
    simp only [anyPending, List.any_cons]
    cases r <;> simp_all
  have hrej : ∀ (t : ApprovalType),
      anyRejected (⟨t, .APPROVED, true, false⟩ :: others) = anyRejected others := by
    intro t
    simp only [anyRejected, List.any_cons]
    simp
  refine ⟨?_, ?_, ?_, ?_, ?_, ?_, ?_⟩
  · exact currentStatusCode_createStatus now IStatus.REJECTED _
  · intro hp
    simp only [approveStatusCascade, approvalPostSave]
    rw [hpend .APPROVED aty (by simp)]
    simp [hp]
  · intro hp hr c hc hcne
    simp only [approveStatusCascade, approvalPostSave]
    rw [hpend .APPROVED aty (by simp), hrej aty]
    simp only [hp, hr, hc]
    simp [hcne]
  · intro hp hr hcur
    simp only [approveStatusCascade, approvalPostSave]
    rw [hpend .APPROVED aty (by simp), hrej aty]
    cases hcur with
    | inl h => simp [hp, hr, h]
    | inr h => simp [hp, hr, h]
  · intro hp hr
    simp only [approveStatusCascade, approvalPostSave]
    rw [hpend .APPROVED .FINAL_APPROVAL (by simp), hrej .FINAL_APPROVAL]
    simp only [hp, hr]
    cases hcur : currentStatusCode st with
    | none =>
        simp [hcur, currentStatusCode_createStatus, createStatus_length]
    | some c =>
        by_cases hc : c = .PENDING_APPROVAL
        · subst hc
          simp [hcur, currentStatusCode_createStatus, createStatus_length]
        · have : ¬ (c = IStatus.PENDING_APPROVAL) := hc
          simp [hcur, this, currentStatusCode_createStatus, createStatus_length]
  · intro hp hr
    constructor
    · intro hcur
      simp only [approveStatusCascade, approvalPostSave]
      rw [hpend .APPROVED .FIRST_APPROVAL (by simp), hrej .FIRST_APPROVAL]
      simp only [hp, hr, hcur]
      simp [currentStatusCode_createStatus]
    · intro hcur
      simp only [approveStatusCascade, approvalPostSave]
      rw [hpend .APPROVED .FIRST_APPROVAL (by simp), hrej .FIRST_APPROVAL]
      cases hc : currentStatusCode st with
      | none => simp [hp, hr, hc]
      | some c =>
          rw [hc] at hcur
          have hcne : ¬ (c = IStatus.REVIEW) := by
            intro h; exact hcur (by rw [h])
          simp [hp, hr, hc, hcne]
  · intro hp hr haty
    have hnf : ¬ (aty = ApprovalType.FINAL_APPROVAL) := by
      rcases haty with h | h | h <;> subst h <;> simp
    have hn1 : ¬ (aty = ApprovalType.FIRST_APPROVAL) := by
      rcases haty with h | h | h <;> subst h <;> simp
    simp only [approveStatusCascade, approvalPostSave]
    rw [hpend .APPROVED aty (by simp), hrej aty]
    cases hc : currentStatusCode st with
    | none => simp [hp, hr, hc, hnf, hn1]
    | some c => simp [hp, hr, hc, hnf, hn1]

/-- Witness for C8 (amended), Scenario D at concrete inputs: with current
status REVIEW and a pending FINAL_APPROVAL sibling, approving
FIRST_APPROVAL leaves the history unchanged only when a sibling is
pending; with no sibling pending, approving FIRST_APPROVAL on REVIEW
advances to PENDING_APPROVAL, and approving FINAL_APPROVAL on
PENDING_APPROVAL yields current status APPROVED (with two records
appended). -/
theorem approval_resolution_cascade_witness :
    approveStatusCascade 4 .FIRST_APPROVAL [⟨.FINAL_APPROVAL, .PENDING, true, false⟩]
        [⟨.REVIEW, 2, none, true, false⟩]
      = [⟨.REVIEW, 2, none, true, false⟩] ∧
    approveStatusCascade 4 .FIRST_APPROVAL [⟨.FINAL_APPROVAL, .APPROVED, true, false⟩]
        [⟨.REVIEW, 2, none, true, false⟩]
      = createStatus 4 .PENDING_APPROVAL [⟨.REVIEW, 2, none, true, false⟩] ∧
    currentStatusCode (approveStatusCascade 4 .FINAL_APPROVAL []
        [⟨.PENDING_APPROVAL, 2, none, true, false⟩]) = some .APPROVED ∧
    (approveStatusCascade 4 .FINAL_APPROVAL []
        [⟨.PENDING_APPROVAL, 2, none, true, false⟩]).length = 3 := by
  refine ⟨?_, ?_, ?_, ?_⟩
  · exact (approval_resolution_cascade 4 .FIRST_APPROVAL
      [⟨.FINAL_APPROVAL, .PENDING, true, false⟩] [⟨.REVIEW, 2, none, true, false⟩]).2.1
      (by decide)
  · exact ((approval_resolution_cascade 4 .FIRST_APPROVAL
      [⟨.FINAL_APPROVAL, .APPROVED, true, false⟩] [⟨.REVIEW, 2, none, true, false⟩]).2.2.2.2.2.1
      (by decide) (by decide)).1 (by decide)
  · exact ((approval_resolution_cascade 4 .FINAL_APPROVAL []
      [⟨.PENDING_APPROVAL, 2, none, true, false⟩]).2.2.2.2.1 (by decide) (by decide)).1
  · have h := ((approval_resolution_cascade 4 .FINAL_APPROVAL []
      [⟨.PENDING_APPROVAL, 2, none, true, false⟩]).2.2.2.2.1 (by decide) (by decide)).2
    simpa using h

/-- C9: an approval's result transitions at most once away from PENDING:
`approve`/`reject` on an already-resolved approval fail with
AlreadyResolved; an actor other than the assigned approver gets
Forbidden; rejecting without a reason fails with MissingReason; in each
failure case no result is produced, so nothing changes. -/
theorem approval_resolution_guards (now : Nat) (c : String) (a : Approval)
    (others : List Approval) (st : Hist IStatus) :
    (a.result ≠ .PENDING →
      approveInvoiceApproval now true a others st = .error .alreadyResolved ∧
      rejectInvoiceApproval now true c a others st = .error .alreadyResolved) ∧
    (a.result = .PENDING →
      approveInvoiceApproval now false a others st = .error .forbidden ∧
      rejectInvoiceApproval now false c a others st = .error .forbidden) ∧
    (a.result = .PENDING →
      rejectInvoiceApproval now true "" a others st = .error .missingReason) := by
  refine ⟨?_, ?_, ?_⟩
  · intro hne
    exact ⟨by simp [approveInvoiceApproval, hne], by simp [rejectInvoiceApproval, hne]⟩
  · intro heq
    exact ⟨by simp [approveInvoiceApproval, heq], by simp [rejectInvoiceApproval, heq]⟩
  · intro heq
    simp [rejectInvoiceApproval, heq]

/-- Witness for C9: a concrete already-approved approval cannot be
re-approved; a pending one cannot be resolved by a non-approver nor
rejected without a reason. -/
theorem approval_resolution_guards_witness :
    approveInvoiceApproval 1 true ⟨.FINAL_APPROVAL, .APPROVED, true, false⟩ [] []
      = .error .alreadyResolved ∧
    rejectInvoiceApproval 1 false "x" ⟨.FINAL_APPROVAL, .PENDING, true, false⟩ [] []
      = .error .forbidden ∧
    rejectInvoiceApproval 1 true "" ⟨.FINAL_APPROVAL, .PENDING, true, false⟩ [] []
      = .error .missingReason := by
  refine ⟨?_, ?_, ?_⟩
  · exact ((approval_resolution_guards 1 "x" ⟨.FINAL_APPROVAL, .APPROVED, true, false⟩
      [] []).1 (by decide)).1
  · exact ((approval_resolution_guards 1 "x" ⟨.FINAL_APPROVAL, .PENDING, true, false⟩
      [] []).2.1 (by decide)).2
  · exact (approval_resolution_guards 1 "x" ⟨.FINAL_APPROVAL, .PENDING, true, false⟩
      [] []).2.2 (by decide)

/-! ## Invoice creation hook (C10) -/

/-- The `invoice_post_save` receiver (apps/invoices/signals.py lines
11-25): when an invoice has just been created and has no status records
at all, create an initial DRAFT status record. -/
def invoicePostSaveHook (now : Nat) (created : Bool) (st : Hist IStatus) : Hist IStatus :=
  if created = true ∧ st = [] then createStatus now .DRAFT st else st

/-- The status history of an invoice right after the ordinary create path
(a fresh save with an empty history, followed by the post-save hook). -/
def ordinaryInvoiceCreateStatuses (now : Nat) : Hist IStatus :=
  invoicePostSaveHook now true []

/-- C10: an invoice created through the ordinary create path immediately
receives a DRAFT status record, so it has a current status (DRAFT) from
the moment it exists, and the transition endpoint can never take the
no-prior-status branch for it (it never returns the `invalidInitial`
error that only that branch produces). -/
theorem invoice_create_initial_draft (now now2 : Nat) (req : IStatus) (b1 b2 : Bool)
    (t : ℚ) (ip : Bool) (pd : Option Nat) :
    currentStatusCode (ordinaryInvoiceCreateStatuses now) = some .DRAFT ∧
    ∀ allowed : List IStatus,
      invoiceTransition now2 req b1 b2
          (⟨t, ip, pd, ordinaryInvoiceCreateStatuses now⟩ : InvoiceAgg)
        ≠ Except.error (TransErr.invalidInitial allowed) := by
  have hcur : currentStatusCode (ordinaryInvoiceCreateStatuses now) = some .DRAFT := by
    show currentStatusCode (createStatus now IStatus.DRAFT []) = some IStatus.DRAFT
    exact currentStatusCode_createStatus now IStatus.DRAFT []
  refine ⟨hcur, ?_⟩
  intro allowed
  simp only [invoiceTransition, hcur]
  by_cases hmem : req ∈ invoice_valid_transitions IStatus.DRAFT
  · simp only [hmem, if_true]
    simp only [invoiceTransitionWrite]
    split
    · simp
    · split
      · simp
      · split <;> simp
  · simp [hmem]

/-- Witness for C10: the concrete freshly created invoice has current
status DRAFT, and a SUBMITTED transition on it is not rejected as an
invalid initial state. -/
theorem invoice_create_initial_draft_witness :
    currentStatusCode (ordinaryInvoiceCreateStatuses 0) = some .DRAFT ∧
    invoiceTransition 1 .SUBMITTED true true ⟨100, false, none, ordinaryInvoiceCreateStatuses 0⟩
      ≠ .error (.invalidInitial invoice_valid_initial) := by
  constructor
  · exact (invoice_create_initial_draft 0 1 .SUBMITTED true true 100 false none).1
  · exact (invoice_create_initial_draft 0 1 .SUBMITTED true true 100 false none).2
      invoice_valid_initial

end Contraly
